import Mathlib

/-!
Verification development for the `ankideck-tts` add-on.

The Python sources are shallowly embedded:
* Python strings are modelled as `String` or `List Char` (when character-level
  operations such as substring search, strip, or slicing are involved);
* Python dicts are modelled as association lists `List (String × JVal)` in
  insertion order, matching CPython's ordered-dict semantics;
* fallible code returns `Option`/`Except`, where the error case models an
  exception escaping a given scope;
* truthiness (`x or y`, `if not x`) is modelled explicitly per value type.

Each embedded definition cites the source file and lines it is translated from.
-/

/-- Python `str.strip()` truthiness support: strip ASCII/unicode whitespace from
both ends of a string (modelled on `List Char`). -/
def pyStrip (s : List Char) : List Char :=
  ((s.dropWhile Char.isWhitespace).reverse.dropWhile Char.isWhitespace).reverse

/-- Python `needle in hay` substring test on strings. -/
def pyIn (needle hay : List Char) : Bool :=
  decide (needle <:+: hay)

/-! ## voice_utils.py : language name conversions -/

/-- The mapping literal of `language_display_to_api_format`
(voice_utils.py lines 165-176). -/
def display_to_api_mapping : List (String × String) :=
  [("中文", "Chinese"), ("英语", "English"), ("法语", "French"),
   ("德语", "German"), ("俄语", "Russian"), ("意大利语", "Italian"),
   ("西班牙语", "Spanish"), ("葡萄牙语", "Portuguese"),
   ("日语", "Japanese"), ("韩语", "Korean")]

/-- The mapping literal of `api_format_to_language_display`
(voice_utils.py lines 190-201). -/
def api_to_display_mapping : List (String × String) :=
  [("Chinese", "中文"), ("English", "英语"), ("French", "法语"),
   ("German", "德语"), ("Russian", "俄语"), ("Italian", "意大利语"),
   ("Spanish", "西班牙语"), ("Portuguese", "葡萄牙语"),
   ("Japanese", "日语"), ("Korean", "韩语")]

/-- Python `mapping.get(key, key)` on a dict literal: first matching entry,
defaulting to the key itself. -/
def mappingGet (m : List (String × String)) (k : String) : String :=
  match m.find? (fun p => p.1 == k) with
  | some p => p.2
  | none => k

/-- `language_display_to_api_format` (voice_utils.py lines 155-177). -/
def language_display_to_api_format (display_name : String) : String :=
  mappingGet display_to_api_mapping display_name

/-- `api_format_to_language_display` (voice_utils.py lines 180-202). -/
def api_format_to_language_display (api_name : String) : String :=
  mappingGet api_to_display_mapping api_name

theorem mappingGet_of_not_mem (m : List (String × String)) (s : String)
    (h : s ∉ m.map Prod.fst) : mappingGet m s = s := by
  have hf : m.find? (fun p => p.1 == s) = none := by
    rw [List.find?_eq_none]
    intro p hp hps
    exact h (List.mem_map.mpr ⟨p, hp, by simpa using hps⟩)
  simp [mappingGet, hf]

/-- C10: the two language-name conversion functions are mutually inverse on the
ten-entry mapped domain, and each returns any name outside its mapping
unchanged. -/
theorem c10_language_mappings_inverse :
    (∀ p ∈ display_to_api_mapping,
        language_display_to_api_format p.1 = p.2 ∧
        api_format_to_language_display (language_display_to_api_format p.1) = p.1) ∧
    (∀ p ∈ api_to_display_mapping,
        language_display_to_api_format (api_format_to_language_display p.1) = p.1) ∧
    (∀ s, s ∉ display_to_api_mapping.map Prod.fst →
        language_display_to_api_format s = s) ∧
    (∀ s, s ∉ api_to_display_mapping.map Prod.fst →
        api_format_to_language_display s = s) := by
  refine ⟨by decide, by decide, ?_, ?_⟩
  · intro s hs
    exact mappingGet_of_not_mem _ _ hs
  · intro s hs
    exact mappingGet_of_not_mem _ _ hs

/-- Witness for C10 at concrete inputs: the round trip on `中文` and the
identity behaviour on the unmapped name `hello`. -/
theorem c10_language_mappings_inverse_witness :
    api_format_to_language_display (language_display_to_api_format "中文") = "中文" ∧
    language_display_to_api_format "hello" = "hello" :=
  ⟨(c10_language_mappings_inverse.1 ("中文", "Chinese") (by decide)).2,
   c10_language_mappings_inverse.2.2.1 "hello" (by decide)⟩

/-! ## dialog.py : the append-mode field writer -/

/-- The append-mode field-value computation of the work unit
(dialog.py line 411):
`cur_val if tag in cur_val else (cur_val + (sep if cur_val.strip() else "") + tag)`. -/
def appendFieldValue (cur sep tag : List Char) : List Char :=
  if pyIn tag cur then cur
  else cur ++ (if pyStrip cur ≠ [] then sep else []) ++ tag

theorem pyIn_iff {needle hay : List Char} : pyIn needle hay = true ↔ needle <:+: hay := by
  simp [pyIn]

/-- C5: the append-mode field writer is idempotent for a fixed reference tag,
leaves the value unchanged when the tag is already a substring, and otherwise
appends separator (only for non-blank current values) and tag. -/
theorem c5_append_idempotent (cur sep tag : List Char) :
    appendFieldValue (appendFieldValue cur sep tag) sep tag = appendFieldValue cur sep tag ∧
    (tag <:+: cur → appendFieldValue cur sep tag = cur) ∧
    (¬ tag <:+: cur →
      appendFieldValue cur sep tag =
        cur ++ (if pyStrip cur ≠ [] then sep else []) ++ tag) := by
  by_cases h : tag <:+: cur
  · have hb : pyIn tag cur = true := pyIn_iff.mpr h
    refine ⟨?_, fun _ => by simp [appendFieldValue, hb], fun hc => absurd h hc⟩
    simp [appendFieldValue, hb]
  · have hb : pyIn tag cur = false := by
      cases hx : pyIn tag cur
      · rfl
      · exact absurd (pyIn_iff.mp hx) h
    have h1 : appendFieldValue cur sep tag =
        cur ++ (if pyStrip cur ≠ [] then sep else []) ++ tag := by
      simp [appendFieldValue, hb]
    refine ⟨?_, fun hc => absurd hc h, fun _ => h1⟩
    have hsuf : tag <:+ cur ++ (if pyStrip cur ≠ [] then sep else []) ++ tag :=
      List.suffix_append _ tag
    have hin : pyIn tag (cur ++ (if pyStrip cur ≠ [] then sep else []) ++ tag) = true :=
      pyIn_iff.mpr hsuf.isInfix
    have h2 : appendFieldValue (cur ++ (if pyStrip cur ≠ [] then sep else []) ++ tag) sep tag =
        cur ++ (if pyStrip cur ≠ [] then sep else []) ++ tag := by
      unfold appendFieldValue
      rw [hin]
      simp
    rw [h1, h2]

/-- Witness for C5 at concrete inputs: appending tag `x` to current value `a`
with separator `<`. -/
theorem c5_append_idempotent_witness :
    ¬ (['x'] <:+: ['a']) ∧
    appendFieldValue ['a'] ['<'] ['x'] =
      ['a'] ++ (if pyStrip ['a'] ≠ [] then ['<'] else []) ++ ['x'] :=
  ⟨by decide, (c5_append_idempotent ['a'] ['<'] ['x']).2.2 (by decide)⟩

/-! ## tts_provider.py : streaming download progress -/

/-- The chunked download loop of `http_get_bytes_stream`
(tts_provider.py lines 25-38), restricted to its progress reports, for a call
with a progress callback supplied.  `total` is
`int(r.headers.get("Content-Length") or 0)`; a missing length header yields
`total = 0`, which is falsy in the two `if on_progress and total:` guards.
Chunks are byte lists; falsy (empty) chunks are skipped. -/
def streamLoopReports (total : Nat) : List (List Nat) → Nat → List Nat
  | [], _ => if total ≠ 0 then [100] else []
  | c :: rest, downloaded =>
    if c.isEmpty then streamLoopReports total rest downloaded
    else
      let d := downloaded + c.length
      if total ≠ 0 then
        min (d * 100 / total) 100 :: streamLoopReports total rest d
      else
        streamLoopReports total rest d

/-- Progress values reported by `http_get_bytes_stream` on a 200 response
delivering `chunks`, with a progress callback supplied. -/
def http_get_bytes_stream_reports (chunks : List (List Nat)) (total : Nat) : List Nat :=
  streamLoopReports total chunks 0

/-- The bytes assembled by `http_get_bytes_stream` (`b"".join(chunks)`). -/
def http_get_bytes_stream_data (chunks : List (List Nat)) : List Nat :=
  chunks.flatten

/-- Running totals of downloaded bytes after each non-empty chunk, starting
from `d` bytes already downloaded. -/
def chunkRunningTotals : List (List Nat) → Nat → List Nat
  | [], _ => []
  | c :: rest, d =>
    if c.isEmpty then chunkRunningTotals rest d
    else (d + c.length) :: chunkRunningTotals rest (d + c.length)

theorem streamLoopReports_pos (total : Nat) (ht : 0 < total) :
    ∀ (chunks : List (List Nat)) (d : Nat),
      streamLoopReports total chunks d =
        (chunkRunningTotals chunks d).map (fun x => min (x * 100 / total) 100) ++ [100] := by
  intro chunks
  induction chunks with
  | nil =>
    intro d
    simp [streamLoopReports, chunkRunningTotals, Nat.pos_iff_ne_zero.mp ht]
  | cons c rest ih =>
    intro d
    by_cases hc : c.isEmpty
    · simp [streamLoopReports, chunkRunningTotals, hc, ih]
    · simp [streamLoopReports, chunkRunningTotals, hc, Nat.pos_iff_ne_zero.mp ht, ih]

theorem streamLoopReports_zero :
    ∀ (chunks : List (List Nat)) (d : Nat), streamLoopReports 0 chunks d = [] := by
  intro chunks
  induction chunks with
  | nil => intro d; simp [streamLoopReports]
  | cons c rest ih =>
    intro d
    by_cases hc : c.isEmpty <;> simp [streamLoopReports, hc, ih]

/-- C8 counterexample: with an unknown total (no Content-Length header, so
`total = 0`), the streaming path reports nothing at all — in particular it does
not report the single final 100 the claim requires. -/
theorem c8_unknown_total_counterexample :
    http_get_bytes_stream_reports [[7, 7, 7]] 0 = [] ∧
    ([] : List Nat) ≠ [100] := by
  constructor
  · rfl
  · decide

/-- C8 (amended): with a known positive total, each reported value is
`downloaded * 100 / total` clamped to 100 and a final 100 is reported on
completion; with an unknown total (`total = 0`) no progress is reported at all
(not even a final 100). -/
theorem c8_stream_progress (chunks : List (List Nat)) (total : Nat) :
    (0 < total →
      http_get_bytes_stream_reports chunks total =
        (chunkRunningTotals chunks 0).map (fun x => min (x * 100 / total) 100) ++ [100]) ∧
    (total = 0 → http_get_bytes_stream_reports chunks total = []) := by
  constructor
  · intro ht
    exact streamLoopReports_pos total ht chunks 0
  · intro h0
    subst h0
    exact streamLoopReports_zero chunks 0

/-- Witness for C8 at concrete inputs: two chunks of 30 and 50 bytes with a
total of 50 (an over-delivering server), and the zero-total case. -/
theorem c8_stream_progress_witness :
    0 < 50 ∧
    http_get_bytes_stream_reports [List.replicate 30 0, List.replicate 50 0] 50 =
      [60, 100, 100] ∧
    http_get_bytes_stream_reports [List.replicate 30 0] 0 = [] :=
  ⟨by decide,
   by rw [(c8_stream_progress _ 50).1 (by decide)]; rfl,
   (c8_stream_progress [List.replicate 30 0] 0).2 rfl⟩

/-! ## config.py : the configuration document model -/

/-- JSON-like configuration values: strings, booleans, and objects
(association lists in insertion order, as CPython dicts are ordered). -/
inductive JVal where
  | s (v : String)
  | b (v : Bool)
  | o (v : List (String × JVal))

/-- Python truthiness of a configuration value. -/
def pyTruthy : JVal → Bool
  | .s v => !(v == "")
  | .b v => v
  | .o d => !d.isEmpty

/-- Python `d.get(k)`: the value of the first (unique) entry with key `k`. -/
def lookupD : List (String × JVal) → String → Option JVal
  | [], _ => none
  | p :: rest, k => if p.1 = k then some p.2 else lookupD rest k

/-- Python `d[k] = v` on a dict (unique keys): replace the value in place if
the key exists (insertion order kept), else append a new entry. -/
def setKey : List (String × JVal) → String → JVal → List (String × JVal)
  | [], k, v => [(k, v)]
  | p :: rest, k, v => if p.1 = k then (k, v) :: rest else p :: setKey rest k v

/-- Python `d.update(src)`: assign every entry of `src` into `d`. -/
def dictUpdate (d src : List (String × JVal)) : List (String × JVal) :=
  src.foldl (fun acc p => setKey acc p.1 p.2) d

/-- Python `x or {}` followed by use as a dict: a missing or falsy value
yields the empty dict; a truthy non-dict value raises (`none`). -/
def dictOrEmpty : Option JVal → Option (List (String × JVal))
  | none => some []
  | some v =>
    if pyTruthy v then
      match v with
      | .o d => some d
      | _ => none
    else some []

/-- `DEFAULT_CONFIG["tts"]` (config.py lines 8-35). -/
def DEFAULT_TTS : List (String × JVal) :=
  [("provider", .s "dashscope"),
   ("api_key", .s ""),
   ("api_keys", .o [("dashscope", .s ""), ("openai", .s ""), ("elevenlabs", .s "")]),
   ("model", .s "qwen3-tts-flash"),
   ("voice", .s "Ethan"),
   ("language_type", .s "Chinese"),
   ("ext", .s "wav"),
   ("models", .o [("dashscope", .s "qwen3-tts-flash"), ("openai", .s "gpt-4o-mini-tts"),
                  ("elevenlabs", .s "eleven_multilingual_v2")]),
   ("voices", .o [("dashscope", .s "Ethan"), ("openai", .s "alloy"),
                  ("elevenlabs", .s "21m00Tcm4TlvDq8ikWAM")]),
   ("exts", .o [("dashscope", .s "wav"), ("openai", .s "mp3"), ("elevenlabs", .s "mp3")])]

/-- `DEFAULT_CONFIG["batch"]` (config.py lines 39-43). -/
def DEFAULT_BATCH : List (String × JVal) :=
  [("skip_if_source_empty", .b true),
   ("skip_if_target_has_sound", .b true),
   ("overwrite", .b false)]

/-- `DEFAULT_CONFIG` (config.py lines 7-44). -/
def DEFAULT_CONFIG : List (String × JVal) :=
  [("tts", .o DEFAULT_TTS),
   ("write_mode", .s "append"),
   ("append_separator", .s "<br>"),
   ("filename_template", .s "tts_{nid}_{field}.{ext}"),
   ("batch", .o DEFAULT_BATCH)]

/-- `get_config` (config.py lines 47-58) applied to the stored configuration
document `cfg` (the result of `mw.addonManager.getConfig(...) or {}`).
`none` models a raised `TypeError` from `dict.update` on a truthy non-dict. -/
def get_config (cfg : List (String × JVal)) : Option (List (String × JVal)) := do
  let ctts ← dictOrEmpty (lookupD cfg "tts")
  let cbatch ← dictOrEmpty (lookupD cfg "batch")
  let merged := dictUpdate DEFAULT_CONFIG cfg
  let merged_tts := dictUpdate DEFAULT_TTS ctts
  let merged1 := setKey merged "tts" (.o merged_tts)
  let merged_batch := dictUpdate DEFAULT_BATCH cbatch
  some (setKey merged1 "batch" (.o merged_batch))

theorem lookupD_eq_none_of_not_mem (d : List (String × JVal)) (k : String)
    (h : k ∉ d.map Prod.fst) : lookupD d k = none := by
  induction d with
  | nil => rfl
  | cons p rest ih =>
    have hp : p.1 ≠ k := fun he => h (by simp [he.symm])
    have hr : k ∉ rest.map Prod.fst := fun hm => h (by simp [hm])
    simp [lookupD, hp, ih hr]

theorem lookupD_setKey (d : List (String × JVal)) (k k2 : String) (v : JVal) :
    lookupD (setKey d k v) k2 = if k2 = k then some v else lookupD d k2 := by
  induction d with
  | nil =>
    by_cases hk2 : k2 = k
    · simp [setKey, lookupD, hk2]
    · have hkk2 : ¬ k = k2 := fun h => hk2 h.symm
      simp [setKey, lookupD, hk2, hkk2]
  | cons p rest ih =>
    by_cases hp : p.1 = k
    · by_cases hk2 : k2 = k
      · simp [setKey, lookupD, hp, hk2]
      · have hkk2 : ¬ k = k2 := fun h => hk2 h.symm
        simp [setKey, lookupD, hp, hk2, hkk2]
    · by_cases hpk2 : p.1 = k2
      · have hk2 : ¬ k2 = k := fun he => hp (hpk2.trans he)
        simp [setKey, lookupD, hp, hpk2, hk2]
      · simp [setKey, lookupD, hp, hpk2, ih]

theorem lookupD_dictUpdate (src : List (String × JVal)) :
    ∀ (d : List (String × JVal)) (k : String), (src.map Prod.fst).Nodup →
      lookupD (dictUpdate d src) k = (lookupD src k).or (lookupD d k) := by
  induction src with
  | nil =>
    intro d k _
    simp [dictUpdate, lookupD]
  | cons p rest ih =>
    intro d k h
    rw [List.map_cons] at h
    have hps := List.nodup_cons.mp h
    have hstep : dictUpdate d (p :: rest) = dictUpdate (setKey d p.1 p.2) rest := rfl
    rw [hstep, ih _ k hps.2, lookupD_setKey]
    by_cases hk : k = p.1
    · have hkn : k ∉ rest.map Prod.fst := by
        rw [hk]
        exact hps.1
      rw [lookupD_eq_none_of_not_mem rest k hkn]
      simp [lookupD, hk, Option.or]
    · have hpk : ¬ p.1 = k := fun h2 => hk h2.symm
      simp [lookupD, hk, hpk]

theorem dictOrEmpty_obj (t : List (String × JVal)) :
    dictOrEmpty (some (JVal.o t)) = some t := by
  cases t with
  | nil => rfl
  | cons p rest => rfl

/-- The value at key `k` of the nested `tts` object of a merged config. -/
def ttsKeyOf (m : Option (List (String × JVal))) (k : String) : Option JVal :=
  match m with
  | some d =>
    match lookupD d "tts" with
    | some (JVal.o t) => lookupD t k
    | _ => none
  | none => none

/-- The value at key `k` of the nested `batch` object of a merged config. -/
def batchKeyOf (m : Option (List (String × JVal))) (k : String) : Option JVal :=
  match m with
  | some d =>
    match lookupD d "batch" with
    | some (JVal.o t) => lookupD t k
    | _ => none
  | none => none

/-- The stored config `{"tts": {"voice": "X"}}` named by the spec's
config-merge test property. -/
def storedVoiceX : List (String × JVal) :=
  [("tts", JVal.o [("voice", JVal.s "X")])]

/-- C6: `get_config` shallow-merges the nested `tts` and `batch` objects
independently over their defaults — for any stored document whose `tts` and
`batch` values are objects with unique keys, every nested key resolves to the
stored value when present and to the default otherwise; in particular the
stored config `{"tts": {"voice": "X"}}` merges to `tts.voice == "X"` with
`tts.model == "qwen3-tts-flash"`. -/
theorem c6_config_shallow_merge :
    (∀ cfg t b, lookupD cfg "tts" = some (JVal.o t) → (t.map Prod.fst).Nodup →
      lookupD cfg "batch" = some (JVal.o b) → (b.map Prod.fst).Nodup →
      ∀ k, ttsKeyOf (get_config cfg) k = (lookupD t k).or (lookupD DEFAULT_TTS k) ∧
           batchKeyOf (get_config cfg) k = (lookupD b k).or (lookupD DEFAULT_BATCH k)) ∧
    ttsKeyOf (get_config storedVoiceX) "voice" = some (JVal.s "X") ∧
    ttsKeyOf (get_config storedVoiceX) "model" = some (JVal.s "qwen3-tts-flash") := by
  refine ⟨?_, rfl, rfl⟩
  intro cfg t b ht hnt hb hnb k
  have hg : get_config cfg =
      some (setKey (setKey (dictUpdate DEFAULT_CONFIG cfg) "tts"
              (JVal.o (dictUpdate DEFAULT_TTS t))) "batch"
              (JVal.o (dictUpdate DEFAULT_BATCH b))) := by
    simp [get_config, ht, hb, dictOrEmpty_obj]
  have h1 : lookupD (setKey (setKey (dictUpdate DEFAULT_CONFIG cfg) "tts"
      (JVal.o (dictUpdate DEFAULT_TTS t))) "batch"
      (JVal.o (dictUpdate DEFAULT_BATCH b))) "tts" =
      some (JVal.o (dictUpdate DEFAULT_TTS t)) := by
    rw [lookupD_setKey, if_neg (by decide), lookupD_setKey, if_pos rfl]
  have h2 : lookupD (setKey (setKey (dictUpdate DEFAULT_CONFIG cfg) "tts"
      (JVal.o (dictUpdate DEFAULT_TTS t))) "batch"
      (JVal.o (dictUpdate DEFAULT_BATCH b))) "batch" =
      some (JVal.o (dictUpdate DEFAULT_BATCH b)) := by
    rw [lookupD_setKey, if_pos rfl]
  constructor
  · rw [hg]
    simp only [ttsKeyOf, h1]
    exact lookupD_dictUpdate t DEFAULT_TTS k hnt
  · rw [hg]
    simp only [batchKeyOf, h2]
    exact lookupD_dictUpdate b DEFAULT_BATCH k hnb

/-- A stored document with both nested objects present, used to witness C6. -/
def storedBoth : List (String × JVal) :=
  [("tts", JVal.o [("voice", JVal.s "X")]),
   ("batch", JVal.o [("overwrite", JVal.b true)])]

/-- Witness for C6 at a concrete stored document. -/
theorem c6_config_shallow_merge_witness :
    ttsKeyOf (get_config storedBoth) "model" =
      (lookupD [("voice", JVal.s "X")] "model").or (lookupD DEFAULT_TTS "model") ∧
    batchKeyOf (get_config storedBoth) "overwrite" =
      (lookupD [("overwrite", JVal.b true)] "overwrite").or
        (lookupD DEFAULT_BATCH "overwrite") :=
  c6_config_shallow_merge.1 storedBoth [("voice", JVal.s "X")]
    [("overwrite", JVal.b true)] rfl (by decide) rfl (by decide) "model"
    |>.1 |> fun h1 =>
  ⟨h1, (c6_config_shallow_merge.1 storedBoth [("voice", JVal.s "X")]
    [("overwrite", JVal.b true)] rfl (by decide) rfl (by decide) "overwrite").2⟩

/-! ## tts_provider.py / dialog.py : provider-scoped setting resolution -/

/-- Python `x or dflt` on configuration values. -/
def pyOrJ (v : Option JVal) (dflt : JVal) : JVal :=
  match v with
  | some x => if pyTruthy x then x else dflt
  | none => dflt

/-- The settings read by `QwenTTSProvider.synthesize`
(tts_provider.py lines 88-92) from the `tts` sub-dict (`cfg.get("tts") or {}`). -/
structure QwenSynthSettings where
  api_key : JVal
  model : JVal
  voice : JVal
  language_type : JVal

def qwenSettingsOfTts (tts : List (String × JVal)) : QwenSynthSettings :=
  { api_key := pyOrJ (lookupD tts "api_key") (.s "")
    model := pyOrJ (lookupD tts "model") (.s "qwen3-tts-flash")
    voice := pyOrJ (lookupD tts "voice") (.s "Cherry")
    language_type := pyOrJ (lookupD tts "language_type") (.s "Chinese") }

/-- The settings read by `OpenAITTSProvider.synthesize`
(tts_provider.py lines 141-144) from the `tts` sub-dict. -/
structure OpenAISynthSettings where
  api_key : JVal
  model : JVal
  voice : JVal

def openaiSettingsOfTts (tts : List (String × JVal)) : OpenAISynthSettings :=
  { api_key := pyOrJ (lookupD tts "api_key") (.s "")
    model := pyOrJ (lookupD tts "model") (.s "tts-1")
    voice := pyOrJ (lookupD tts "voice") (.s "alloy") }

/-- The audio extension used by the work unit:
`(tts_cfg.get("ext") or "wav").lstrip(".")` (dialog.py line 390).  `none`
models the AttributeError raised on a truthy non-string value. -/
def extOfTts (tts : List (String × JVal)) : Option String :=
  match pyOrJ (lookupD tts "ext") (.s "wav") with
  | .s v => some (String.mk (v.toList.dropWhile (fun c => c == '.')))
  | _ => none

/-- The `tts` sub-dict used to refute C1: the per-provider mapping entry
`models.dashscope = "A"` and the flat field `model = "B"` are both present. -/
def c1StoredTts : List (String × JVal) :=
  [("model", JVal.s "B"), ("models", JVal.o [("dashscope", JVal.s "A")])]

/-- C1 counterexample: with both the per-provider mapping
(`models.dashscope = "A"`) and the flat single-provider field
(`model = "B"`) present, the synthesize-call resolution yields the flat
value `"B"`, not the mapping value the claim says must win. -/
theorem c1_per_provider_counterexample :
    lookupD c1StoredTts "models" = some (JVal.o [("dashscope", JVal.s "A")]) ∧
    (qwenSettingsOfTts c1StoredTts).model = JVal.s "B" ∧
    ("B" : String) ≠ "A" :=
  ⟨rfl, rfl, by decide⟩

/-- C1 (amended): the provider-scoped settings used for one synthesis call are
read only from the flat single-provider fields; the per-provider mapping
entries (`models`, `voices`, `api_keys`, `exts`) are never consulted — writing
any value into them leaves every resolved setting unchanged — and a non-empty
flat field always wins. -/
theorem c1_flat_fields_resolution (tts : List (String × JVal)) (mv : JVal) :
    (qwenSettingsOfTts (setKey tts "models" mv) = qwenSettingsOfTts tts ∧
     qwenSettingsOfTts (setKey tts "voices" mv) = qwenSettingsOfTts tts ∧
     qwenSettingsOfTts (setKey tts "api_keys" mv) = qwenSettingsOfTts tts ∧
     qwenSettingsOfTts (setKey tts "exts" mv) = qwenSettingsOfTts tts) ∧
    (openaiSettingsOfTts (setKey tts "models" mv) = openaiSettingsOfTts tts ∧
     openaiSettingsOfTts (setKey tts "voices" mv) = openaiSettingsOfTts tts ∧
     openaiSettingsOfTts (setKey tts "api_keys" mv) = openaiSettingsOfTts tts ∧
     openaiSettingsOfTts (setKey tts "exts" mv) = openaiSettingsOfTts tts) ∧
    extOfTts (setKey tts "exts" mv) = extOfTts tts ∧
    (∀ m2, lookupD tts "model" = some (JVal.s m2) → m2 ≠ "" →
      (qwenSettingsOfTts tts).model = JVal.s m2 ∧
      (openaiSettingsOfTts tts).model = JVal.s m2) ∧
    (∀ v2, lookupD tts "voice" = some (JVal.s v2) → v2 ≠ "" →
      (qwenSettingsOfTts tts).voice = JVal.s v2 ∧
      (openaiSettingsOfTts tts).voice = JVal.s v2) ∧
    (∀ a2, lookupD tts "api_key" = some (JVal.s a2) → a2 ≠ "" →
      (qwenSettingsOfTts tts).api_key = JVal.s a2 ∧
      (openaiSettingsOfTts tts).api_key = JVal.s a2) := by
  have hL : ∀ (K k : String), ¬ k = K →
      lookupD (setKey tts K mv) k = lookupD tts k := by
    intro K k h
    rw [lookupD_setKey]
    exact if_neg h
  have hq : ∀ K : String, ¬ ("api_key" = K) → ¬ ("model" = K) →
      ¬ ("voice" = K) → ¬ ("language_type" = K) →
      qwenSettingsOfTts (setKey tts K mv) = qwenSettingsOfTts tts := by
    intro K h1 h2 h3 h4
    simp [qwenSettingsOfTts, hL K _ h1, hL K _ h2, hL K _ h3, hL K _ h4]
  have ho : ∀ K : String, ¬ ("api_key" = K) → ¬ ("model" = K) →
      ¬ ("voice" = K) →
      openaiSettingsOfTts (setKey tts K mv) = openaiSettingsOfTts tts := by
    intro K h1 h2 h3
    simp [openaiSettingsOfTts, hL K _ h1, hL K _ h2, hL K _ h3]
  have hflat : ∀ (k : String) (x : String), lookupD tts k = some (JVal.s x) →
      x ≠ "" → pyOrJ (lookupD tts k) (.s "qwen3-tts-flash") = JVal.s x ∧
      pyOrJ (lookupD tts k) (.s "tts-1") = JVal.s x ∧
      pyOrJ (lookupD tts k) (.s "Cherry") = JVal.s x ∧
      pyOrJ (lookupD tts k) (.s "alloy") = JVal.s x ∧
      pyOrJ (lookupD tts k) (.s "") = JVal.s x := by
    intro k x hx hne
    have hb : (x == "") = false := by
      simpa using hne
    simp [pyOrJ, hx, pyTruthy, hb]
  refine ⟨⟨hq _ (by decide) (by decide) (by decide) (by decide),
          hq _ (by decide) (by decide) (by decide) (by decide),
          hq _ (by decide) (by decide) (by decide) (by decide),
          hq _ (by decide) (by decide) (by decide) (by decide)⟩,
         ⟨ho _ (by decide) (by decide) (by decide),
          ho _ (by decide) (by decide) (by decide),
          ho _ (by decide) (by decide) (by decide),
          ho _ (by decide) (by decide) (by decide)⟩,
         ?_, ?_, ?_, ?_⟩
  · simp [extOfTts, hL "exts" "ext" (by decide)]
  · intro m2 hm hne
    exact ⟨by simp [qwenSettingsOfTts, (hflat "model" m2 hm hne).1],
           by simp [openaiSettingsOfTts, (hflat "model" m2 hm hne).2.1]⟩
  · intro v2 hv hne
    exact ⟨by simp [qwenSettingsOfTts, (hflat "voice" v2 hv hne).2.2.1],
           by simp [openaiSettingsOfTts, (hflat "voice" v2 hv hne).2.2.2.1]⟩
  · intro a2 ha hne
    exact ⟨by simp [qwenSettingsOfTts, (hflat "api_key" a2 ha hne).2.2.2.2],
           by simp [openaiSettingsOfTts, (hflat "api_key" a2 ha hne).2.2.2.2]⟩

/-- Witness for C1 at the concrete `tts` sub-dict of the counterexample. -/
theorem c1_flat_fields_resolution_witness :
    qwenSettingsOfTts (setKey c1StoredTts "models" (JVal.s "zzz")) =
      qwenSettingsOfTts c1StoredTts ∧
    (qwenSettingsOfTts c1StoredTts).model = JVal.s "B" :=
  ⟨(c1_flat_fields_resolution c1StoredTts (JVal.s "zzz")).1.1,
   ((c1_flat_fields_resolution c1StoredTts (JVal.s "zzz")).2.2.2.1 "B" rfl
      (by decide)).1⟩

/-! ## dialog.py : the job queue orchestrator

The dialog's queue mechanics are modelled as a state machine.  A `Job` is one
entry of `self.jobs`; the Qt table is modelled by its per-row state labels
(column 1); `inflight` holds the closure data (job identity and captured row)
of every dispatched background work unit whose `on_done` has not yet run
(`_clear_queue` does not cancel background tasks, so several can be
outstanding after a mid-run clear).  The second component of each operation
records whether an exception escaped to the event loop during that step;
mutations made before the raise persist. -/

inductive JState where
  | waiting
  | processing
  | done
  | skipped
  | error
deriving DecidableEq

structure Job where
  jid : Nat
  nid : Nat
  row : Nat
  state : JState
  progress : Nat
  text : List Char
deriving DecidableEq

structure InfTask where
  jid : Nat
  row : Nat
deriving DecidableEq

/-- The typed outcome tuple returned by the work unit `bg`
(first component of `(status, stored_name, err)`). -/
inductive Outcome where
  | ok (stored : String)
  | skip_empty
  | skip_has_sound
  | no_audio
  | error (msg : String)
deriving DecidableEq

/-- The result of executing the work-unit function: either its returned
outcome tuple, or an exception raised inside it. -/
inductive BgRun where
  | val (out : Outcome)
  | exn (msg : String)
deriving DecidableEq

structure MState where
  queue : List Job
  table : List String
  batchBar : Nat
  running : Bool
  inflight : List InfTask
  nextJid : Nat
deriving DecidableEq

/-- `_update_row` (dialog.py 298-308) called with a state label: sets the
label at `row`; when the row no longer exists, `self.table.item(row, 1)` is
`None` and `.setText` raises (flag `true`). -/
def updateRowM (s : MState) (row : Nat) (label : String) : MState × Bool :=
  if row < s.table.length then ({s with table := s.table.set row label}, false)
  else (s, true)

/-- Sequence two steps, short-circuiting when an exception was raised. -/
def thenDo (r : MState × Bool) (f : MState → MState × Bool) : MState × Bool :=
  if r.2 then r else f r.1

/-- `_update_batch_bar` (dialog.py 324-328). -/
def updateBatchBar (s : MState) : MState :=
  let total := max 1 s.queue.length
  let done := (s.queue.filter (fun j => j.state == JState.done ||
    j.state == JState.skipped || j.state == JState.error)).length
  {s with batchBar := done * 100 / total}

/-- Mutation of the job dict captured by a closure (`job["state"] = ...`,
optionally `job["progress"] = ...`): visible in `self.jobs` exactly when the
dict is still in it. -/
def setJobState (q : List Job) (jid : Nat) (st : JState) (pr : Option Nat) : List Job :=
  q.map (fun j => if j.jid == jid then
    {j with state := st, progress := pr.getD j.progress} else j)

/-- The outcome → (terminal state, progress update, display label) mapping of
`on_done` (dialog.py 436-450). -/
def outcomeEffect : Outcome → JState × Option Nat × String
  | .ok _ => (JState.done, some 100, "done")
  | .skip_empty => (JState.skipped, some 0, "skipped (empty)")
  | .skip_has_sound => (JState.skipped, some 0, "skipped (already has sound)")
  | .no_audio => (JState.error, none, "no audio")
  | .error e => (JState.error, none, "error: " ++ e)

/-- `_process_job` up to its dispatch (dialog.py 349-357, 454-456) for the
found job `j`: mark it processing, update its row, and register the work unit
as in flight. -/
def processJob (s : MState) (j : Job) : MState × Bool :=
  let s1 := {s with queue := setJobState s.queue j.jid JState.processing none}
  thenDo (updateRowM s1 j.row "processing (generating…)")
    (fun s2 => ({s2 with inflight := s2.inflight ++ [{jid := j.jid, row := j.row}]}, false))

/-- `_process_next` (dialog.py 336-347). -/
def processNext (s : MState) : MState × Bool :=
  match s.queue.find? (fun j => j.state == JState.waiting) with
  | none => ({s with running := false}, false)
  | some j => processJob s j

/-- `on_done` (dialog.py 420-452) for an already-unwrapped outcome, invoked by
the closure holding task `t`. -/
def onDone (s : MState) (t : InfTask) (out : Outcome) : MState × Bool :=
  let eff := outcomeEffect out
  let s1 := {s with queue := setJobState s.queue t.jid eff.1 eff.2.1}
  thenDo (updateRowM s1 t.row eff.2.2)
    (fun s2 => processNext (updateBatchBar s2))

/-- The future unwrap at the top of `on_done` (dialog.py 421-435): a result
returned by `bg` is passed through, an exception raised inside `bg` is caught
by `future.result()` and converted to the `error` outcome tuple. -/
def bgRunOutcome : BgRun → Outcome
  | .val o => o
  | .exn e => Outcome.error e

inductive QStep where
  | enqueue (nid : Nat) (text : List Char)
  | start
  | complete (jid : Nat) (bgr : BgRun)
  | clear

/-- One event of the dialog's loop.  `enqueue` is `_enqueue_notes` for one
note (dialog.py 310-322; the bar update runs per note here, with the same
final value), `start` is `_start_queue` (330-334), `complete` delivers a
finished background work unit to `on_done` — the future unwrap of dialog.py
421-435 converts an exception raised inside `bg` into the `error` outcome —
and `clear` is `_clear_queue` (139-144), which does not cancel in-flight
work.  A `complete` for a task that is not in flight never happens (each task
completes exactly once) and is a no-op. -/
def step (s : MState) : QStep → MState × Bool
  | .enqueue nid text =>
    let row := s.table.length
    let newJob : Job :=
      { jid := s.nextJid, nid := nid, row := row,
        state := JState.waiting, progress := 0, text := text }
    let s1 := {s with
      table := s.table ++ ["waiting"],
      queue := s.queue ++ [newJob],
      nextJid := s.nextJid + 1}
    (updateBatchBar s1, false)
  | .start =>
    if !s.running && !s.queue.isEmpty then processNext {s with running := true}
    else (s, false)
  | .complete jid bgr =>
    match s.inflight.find? (fun t => t.jid == jid) with
    | some t =>
      onDone {s with inflight := s.inflight.filter (fun t2 => !(t2.jid == jid))} t
        (bgRunOutcome bgr)
    | none => (s, false)
  | .clear => ({s with queue := [], table := [], batchBar := 0, running := false}, false)

/-- The dialog's initial queue state (dialog.py 124-125). -/
def initState : MState :=
  { queue := [], table := [], batchBar := 0, running := false,
    inflight := [], nextJid := 0 }

def runSteps (s : MState) (steps : List QStep) : MState :=
  steps.foldl (fun s2 a => (step s2 a).1) s

def processingCount (s : MState) : Nat :=
  (s.queue.filter (fun j => j.state == JState.processing)).length

/-- Whether every `clear` in the trace fires while no work unit is in flight. -/
def clearSafe : MState → List QStep → Bool
  | _, [] => true
  | s, a :: rest =>
    (match a with
     | QStep.clear => s.inflight.isEmpty
     | _ => true) && clearSafe (step s a).1 rest

/-- A run that clears mid-flight and re-enqueues: the late completion of the
cleared job drives `_process_next` while the new run's job is still
processing. -/
def c3Trace : List QStep :=
  [QStep.enqueue 1 ['a'], QStep.start, QStep.clear,
   QStep.enqueue 2 ['b'], QStep.enqueue 3 ['c'], QStep.start,
   QStep.complete 0 (BgRun.val Outcome.skip_empty)]

/-- C3 counterexample: after a mid-run clear and re-enqueue, the cleared job's
late completion dispatches the next waiting job while the restarted run's job
is still `processing` — two queued jobs are `processing` at once. -/
theorem c3_two_processing_counterexample :
    ¬ (processingCount (runSteps initState c3Trace) ≤ 1) := by decide

/-! ### The sequential invariant for runs without mid-flight clears -/

/-- Inductive invariant of the queue machine for runs in which `clear` is
never invoked while a work unit is in flight. -/
def QInv (s : MState) : Prop :=
  (s.queue.map Job.jid).Nodup ∧
  (∀ j ∈ s.queue, j.state = JState.processing → ∃ t ∈ s.inflight, t.jid = j.jid) ∧
  s.inflight.length ≤ 1 ∧
  (s.running = false → s.inflight = []) ∧
  (∀ j ∈ s.queue, j.row < s.table.length) ∧
  (∀ j ∈ s.queue, j.jid < s.nextJid) ∧
  (∀ t ∈ s.inflight, ∃ j ∈ s.queue, j.jid = t.jid ∧ j.row = t.row ∧
    j.state = JState.processing)

instance decidableQInv (s : MState) : Decidable (QInv s) := by
  unfold QInv
  infer_instance

theorem setJobState_map_jid (q : List Job) (jid : Nat) (st : JState) (pr : Option Nat) :
    (setJobState q jid st pr).map Job.jid = q.map Job.jid := by
  unfold setJobState
  rw [List.map_map]
  apply List.map_congr_left
  intro j _
  show (if j.jid == jid then
    {j with state := st, progress := pr.getD j.progress} else j).jid = j.jid
  split <;> rfl

theorem mem_setJobState {q : List Job} {jid : Nat} {st : JState} {pr : Option Nat}
    {j2 : Job} (h : j2 ∈ setJobState q jid st pr) :
    ∃ j ∈ q, j2 = (if j.jid == jid then
      {j with state := st, progress := pr.getD j.progress} else j) := by
  unfold setJobState at h
  obtain ⟨j, hj, he⟩ := List.mem_map.mp h
  exact ⟨j, hj, he.symm⟩

theorem setJobState_mem_of_mem {q : List Job} {j : Job} (hj : j ∈ q)
    (jid : Nat) (st : JState) (pr : Option Nat) :
    (if j.jid == jid then {j with state := st, progress := pr.getD j.progress} else j) ∈
      setJobState q jid st pr :=
  List.mem_map_of_mem _ hj

theorem outcomeEffect_fst_ne_processing (out : Outcome) :
    (outcomeEffect out).1 ≠ JState.processing := by
  cases out <;> simp [outcomeEffect]

theorem eq_singleton_of_mem_of_length_le {α : Type} {l : List α} {x : α}
    (hx : x ∈ l) (hl : l.length ≤ 1) : l = [x] := by
  cases l with
  | nil => cases hx
  | cons y ys =>
    cases ys with
    | nil =>
      have := List.mem_singleton.mp hx
      rw [this]
    | cons z zs => simp at hl

theorem processJob_eq (s : MState) (j : Job) (hrow : j.row < s.table.length) :
    processJob s j =
      ({s with queue := setJobState s.queue j.jid JState.processing none,
               table := s.table.set j.row "processing (generating…)",
               inflight := s.inflight ++ [{jid := j.jid, row := j.row}]}, false) := by
  simp [processJob, thenDo, updateRowM, hrow]

theorem onDone_eq (s : MState) (t : InfTask) (out : Outcome)
    (hrow : t.row < s.table.length) :
    onDone s t out =
      processNext (updateBatchBar
        {s with queue := setJobState s.queue t.jid (outcomeEffect out).1
                  (outcomeEffect out).2.1,
                table := s.table.set t.row (outcomeEffect out).2.2}) := by
  simp [onDone, thenDo, updateRowM, hrow]

theorem processJob_inv (s : MState) (j : Job)
    (hN : (s.queue.map Job.jid).Nodup)
    (hR : ∀ j2 ∈ s.queue, j2.row < s.table.length)
    (hJ : ∀ j2 ∈ s.queue, j2.jid < s.nextJid)
    (hIn : s.inflight = [])
    (hRun : s.running = true)
    (hNoProc : ∀ j2 ∈ s.queue, j2.state ≠ JState.processing)
    (hj : j ∈ s.queue) :
    (processJob s j).2 = false ∧ QInv (processJob s j).1 := by
  have hrow : j.row < s.table.length := hR j hj
  rw [processJob_eq s j hrow]
  refine ⟨rfl, ?_, ?_, ?_, ?_, ?_, ?_, ?_⟩
  · simpa [setJobState_map_jid] using hN
  · intro j2 hj2 hproc
    obtain ⟨j0, hj0, he⟩ := mem_setJobState hj2
    by_cases hid : (j0.jid == j.jid) = true
    · have hid2 : j0.jid = j.jid := by simpa using hid
      refine ⟨{jid := j.jid, row := j.row}, by simp [hIn], ?_⟩
      rw [he, if_pos hid]
      exact hid2.symm
    · exfalso
      rw [he, if_neg hid] at hproc
      exact hNoProc j0 hj0 hproc
  · simp [hIn]
  · intro hf
    rw [hRun] at hf
    cases hf
  · intro j2 hj2
    obtain ⟨j0, hj0, he⟩ := mem_setJobState hj2
    have hr2 : j2.row = j0.row := by
      rw [he]
      split <;> rfl
    rw [List.length_set, hr2]
    exact hR j0 hj0
  · intro j2 hj2
    obtain ⟨j0, hj0, he⟩ := mem_setJobState hj2
    have hjid2 : j2.jid = j0.jid := by
      rw [he]
      split <;> rfl
    rw [hjid2]
    exact hJ j0 hj0
  · intro t ht
    simp only [hIn, List.nil_append, List.mem_singleton] at ht
    refine ⟨{j with state := JState.processing}, ?_, ?_, ?_, ?_⟩
    · have hm := setJobState_mem_of_mem hj j.jid JState.processing none
      rw [if_pos (by simp)] at hm
      exact hm
    · rw [ht]
    · rw [ht]
    · rfl

theorem processNext_inv (s : MState)
    (hN : (s.queue.map Job.jid).Nodup)
    (hR : ∀ j2 ∈ s.queue, j2.row < s.table.length)
    (hJ : ∀ j2 ∈ s.queue, j2.jid < s.nextJid)
    (hIn : s.inflight = [])
    (hRun : s.running = true)
    (hNoProc : ∀ j2 ∈ s.queue, j2.state ≠ JState.processing) :
    (processNext s).2 = false ∧ QInv (processNext s).1 := by
  unfold processNext
  cases hf : s.queue.find? (fun j => j.state == JState.waiting) with
  | none =>
    refine ⟨rfl, hN, ?_, ?_, ?_, hR, hJ, ?_⟩
    · intro j2 hj2 hproc
      exact absurd hproc (hNoProc j2 hj2)
    · simp [hIn]
    · intro _
      exact hIn
    · intro t ht
      rw [hIn] at ht
      cases ht
  | some j =>
    exact processJob_inv s j hN hR hJ hIn hRun hNoProc
      (List.mem_of_find?_eq_some hf)

theorem onDone_inv (s : MState) (t : InfTask) (out : Outcome)
    (hN : (s.queue.map Job.jid).Nodup)
    (hR : ∀ j2 ∈ s.queue, j2.row < s.table.length)
    (hJ : ∀ j2 ∈ s.queue, j2.jid < s.nextJid)
    (hIn : s.inflight = [])
    (hRun : s.running = true)
    (hrow : t.row < s.table.length)
    (hProcId : ∀ j2 ∈ s.queue, j2.state = JState.processing → j2.jid = t.jid) :
    (onDone s t out).2 = false ∧ QInv (onDone s t out).1 := by
  rw [onDone_eq s t out hrow]
  apply processNext_inv
  · show ((setJobState s.queue t.jid (outcomeEffect out).1
      (outcomeEffect out).2.1).map Job.jid).Nodup
    rw [setJobState_map_jid]
    exact hN
  · show ∀ j2 ∈ setJobState s.queue t.jid (outcomeEffect out).1
      (outcomeEffect out).2.1, j2.row < (s.table.set t.row (outcomeEffect out).2.2).length
    intro j2 hj2
    obtain ⟨j0, hj0, he⟩ := mem_setJobState hj2
    have hr2 : j2.row = j0.row := by
      rw [he]
      split <;> rfl
    rw [List.length_set, hr2]
    exact hR j0 hj0
  · show ∀ j2 ∈ setJobState s.queue t.jid (outcomeEffect out).1
      (outcomeEffect out).2.1, j2.jid < s.nextJid
    intro j2 hj2
    obtain ⟨j0, hj0, he⟩ := mem_setJobState hj2
    have hjid2 : j2.jid = j0.jid := by
      rw [he]
      split <;> rfl
    rw [hjid2]
    exact hJ j0 hj0
  · show s.inflight = []
    exact hIn
  · show s.running = true
    exact hRun
  · show ∀ j2 ∈ setJobState s.queue t.jid (outcomeEffect out).1
      (outcomeEffect out).2.1, j2.state ≠ JState.processing
    intro j2 hj2 hproc
    obtain ⟨j0, hj0, he⟩ := mem_setJobState hj2
    by_cases hid : (j0.jid == t.jid) = true
    · rw [he, if_pos hid] at hproc
      exact outcomeEffect_fst_ne_processing out hproc
    · rw [he, if_neg hid] at hproc
      exact hid (by simp [hProcId j0 hj0 hproc])

theorem qinv_step (s : MState) (a : QStep) (h : QInv s)
    (hc : a = QStep.clear → s.inflight = []) : QInv (step s a).1 := by
  obtain ⟨hN, hD, hL, hF, hR, hJ, hQ⟩ := h
  cases a with
  | enqueue nid text =>
    have hqe : (step s (QStep.enqueue nid text)).1.queue =
        s.queue ++ [Job.mk s.nextJid nid s.table.length JState.waiting 0 text] := rfl
    have hte : (step s (QStep.enqueue nid text)).1.table = s.table ++ ["waiting"] := rfl
    have hre : (step s (QStep.enqueue nid text)).1.running = s.running := rfl
    have hie : (step s (QStep.enqueue nid text)).1.inflight = s.inflight := rfl
    have hne : (step s (QStep.enqueue nid text)).1.nextJid = s.nextJid + 1 := rfl
    refine ⟨?_, ?_, ?_, ?_, ?_, ?_, ?_⟩
    · rw [hqe, List.map_append, List.nodup_append]
      refine ⟨hN, by simp, ?_⟩
      intro x hx
      simp only [List.map_cons, List.map_nil, List.mem_singleton]
      intro he
      obtain ⟨j0, hj0, hje⟩ := List.mem_map.mp hx
      have := hJ j0 hj0
      rw [hje, he] at this
      exact Nat.lt_irrefl _ this
    · rw [hqe, hie]
      intro j2 hj2 hproc
      rcases List.mem_append.mp hj2 with hj2a | hj2b
      · exact hD j2 hj2a hproc
      · rw [List.mem_singleton] at hj2b
        rw [hj2b] at hproc
        cases hproc
    · rw [hie]
      exact hL
    · rw [hre, hie]
      exact hF
    · rw [hqe, hte]
      intro j2 hj2
      rw [List.length_append, List.length_singleton]
      rcases List.mem_append.mp hj2 with hj2a | hj2b
      · exact Nat.lt_succ_of_lt (hR j2 hj2a)
      · rw [List.mem_singleton] at hj2b
        rw [hj2b]
        exact Nat.lt_succ_self _
    · rw [hqe, hne]
      intro j2 hj2
      rcases List.mem_append.mp hj2 with hj2a | hj2b
      · exact Nat.lt_succ_of_lt (hJ j2 hj2a)
      · rw [List.mem_singleton] at hj2b
        rw [hj2b]
        exact Nat.lt_succ_self _
    · rw [hie, hqe]
      intro t ht
      obtain ⟨j0, hj0, hp⟩ := hQ t ht
      exact ⟨j0, List.mem_append_left _ hj0, hp⟩
  | start =>
    show QInv (if !s.running && !s.queue.isEmpty then
      processNext {s with running := true} else (s, false)).1
    by_cases hg : (!s.running && !s.queue.isEmpty) = true
    · rw [if_pos hg]
      have hrf : s.running = false := by
        cases hr : s.running
        · rfl
        · rw [hr] at hg
          simp at hg
      have hin : s.inflight = [] := hF hrf
      have hnp : ∀ j2 ∈ s.queue, j2.state ≠ JState.processing := by
        intro j2 hj2 hproc
        obtain ⟨t, ht, _⟩ := hD j2 hj2 hproc
        rw [hin] at ht
        cases ht
      exact (processNext_inv {s with running := true} hN hR hJ hin rfl hnp).2
    · rw [if_neg hg]
      exact ⟨hN, hD, hL, hF, hR, hJ, hQ⟩
  | complete jid bgr =>
    clear hc
    show QInv (match s.inflight.find? (fun (t : InfTask) => t.jid == jid) with
      | some t => onDone {s with inflight := s.inflight.filter (fun (t2 : InfTask) => !(t2.jid == jid))} t (bgRunOutcome bgr)
      | none => (s, false)).1
    cases hf : s.inflight.find? (fun (t : InfTask) => t.jid == jid) with
    | none => exact ⟨hN, hD, hL, hF, hR, hJ, hQ⟩
    | some t =>
      have htmem : t ∈ s.inflight := List.mem_of_find?_eq_some hf
      have htjid : (t.jid == jid) = true := by
        have h2 := List.find?_some hf
        simpa using h2
      have hsingle : s.inflight = [t] := eq_singleton_of_mem_of_length_le htmem hL
      have hfilter : s.inflight.filter (fun (t2 : InfTask) => !(t2.jid == jid)) = [] := by
        rw [hsingle]
        simp [List.filter, htjid]
      have hrun : s.running = true := by
        cases hr : s.running
        · rw [hF hr] at htmem
          cases htmem
        · rfl
      obtain ⟨jb, hjb, hjbjid, hjbrow, hjbproc⟩ := hQ t htmem
      have hrow : t.row < s.table.length := by
        rw [← hjbrow]
        exact hR jb hjb
      have hProcId : ∀ j2 ∈ s.queue, j2.state = JState.processing → j2.jid = t.jid := by
        intro j2 hj2 hproc
        obtain ⟨t2, ht2, ht2jid⟩ := hD j2 hj2 hproc
        rw [hsingle, List.mem_singleton] at ht2
        rw [← ht2jid, ht2]
      exact (onDone_inv
        {s with inflight := s.inflight.filter (fun (t2 : InfTask) => !(t2.jid == jid))}
        t (bgRunOutcome bgr) hN hR hJ hfilter hrun hrow hProcId).2
  | clear =>
    have hin := hc rfl
    have hqe : (step s QStep.clear).1.queue = [] := rfl
    have hre : (step s QStep.clear).1.running = false := rfl
    have hie : (step s QStep.clear).1.inflight = s.inflight := rfl
    refine ⟨?_, ?_, ?_, ?_, ?_, ?_, ?_⟩
    · rw [hqe]
      exact List.nodup_nil
    · rw [hqe]
      intro j2 hj2
      cases hj2
    · rw [hie, hin]
      exact Nat.zero_le 1
    · intro _
      rw [hie]
      exact hin
    · rw [hqe]
      intro j2 hj2
      cases hj2
    · rw [hqe]
      intro j2 hj2
      cases hj2
    · rw [hie, hin]
      intro t ht
      cases ht

theorem qinv_init : QInv initState :=
  ⟨List.nodup_nil,
   fun j hj => absurd hj (List.not_mem_nil j),
   Nat.zero_le 1,
   fun _ => rfl,
   fun j hj => absurd hj (List.not_mem_nil j),
   fun j hj => absurd hj (List.not_mem_nil j),
   fun t ht => absurd ht (List.not_mem_nil t)⟩

theorem clearSafe_cons (s : MState) (a : QStep) (rest : List QStep) :
    clearSafe s (a :: rest) =
      ((match a with
        | QStep.clear => s.inflight.isEmpty
        | _ => true) && clearSafe (step s a).1 rest) := rfl

theorem qinv_run : ∀ (steps : List QStep) (s : MState), QInv s →
    clearSafe s steps = true → QInv (runSteps s steps) := by
  intro steps
  induction steps with
  | nil =>
    intro s h _
    exact h
  | cons a rest ih =>
    intro s h hcs
    rw [clearSafe_cons, Bool.and_eq_true] at hcs
    have hclear : a = QStep.clear → s.inflight = [] := by
      intro he
      subst he
      have h1 := hcs.1
      simpa using h1
    exact ih (step s a).1 (qinv_step s a h hclear) hcs.2

theorem length_le_one_of_nodup_jid_const {l : List Job} (c : Nat)
    (hn : (l.map Job.jid).Nodup) (hc : ∀ j ∈ l, j.jid = c) : l.length ≤ 1 := by
  cases l with
  | nil => exact Nat.zero_le 1
  | cons j1 rest =>
    cases rest with
    | nil => exact Nat.le_refl 1
    | cons j2 rest2 =>
      exfalso
      rw [List.map_cons, List.map_cons, List.nodup_cons] at hn
      apply hn.1
      rw [hc j1 (by simp), hc j2 (by simp)]
      simp

theorem processingCount_le_one_of_inv (s : MState) (h : QInv s) :
    processingCount s ≤ 1 := by
  obtain ⟨hN, hD, hL, _, _, _, _⟩ := h
  unfold processingCount
  cases hin : s.inflight with
  | nil =>
    have : s.queue.filter (fun j => j.state == JState.processing) = [] := by
      rw [List.filter_eq_nil_iff]
      intro j hj hproc
      obtain ⟨t, ht, _⟩ := hD j hj (by simpa using hproc)
      rw [hin] at ht
      cases ht
    rw [this]
    exact Nat.zero_le 1
  | cons t rest =>
    have hrest : rest = [] := by
      rw [hin] at hL
      cases rest with
      | nil => rfl
      | cons t2 rest2 => simp at hL
    apply length_le_one_of_nodup_jid_const t.jid
    · exact (List.filter_sublist s.queue).map Job.jid |>.nodup hN
    · intro j hj
      have hjq : j ∈ s.queue := List.mem_of_mem_filter hj
      have hproc : j.state = JState.processing := by
        have := List.of_mem_filter hj
        simpa using this
      obtain ⟨t2, ht2, ht2jid⟩ := hD j hjq hproc
      rw [hin, hrest, List.mem_singleton] at ht2
      rw [← ht2jid, ht2]

/-- C3 (amended): in every queue run in which Clear is never invoked while a
work unit is in flight, at most one Job in the queue is in `processing` state
at any reachable instant; when Clear interrupts an in-flight work unit and new
jobs are enqueued, the stale completion can drive a second dispatch (see the
counterexample). -/
theorem c3_at_most_one_processing (steps : List QStep)
    (h : clearSafe initState steps = true) :
    processingCount (runSteps initState steps) ≤ 1 :=
  processingCount_le_one_of_inv _ (qinv_run steps initState qinv_init h)

/-- Witness for C3 on a concrete run containing enqueues, a completed job, a
(safe) clear, and a restart. -/
theorem c3_at_most_one_processing_witness :
    clearSafe initState
      [QStep.enqueue 1 ['a'], QStep.start, QStep.complete 0 (BgRun.val (Outcome.ok "f.wav")),
       QStep.clear, QStep.enqueue 2 ['b'], QStep.start] = true ∧
    processingCount (runSteps initState
      [QStep.enqueue 1 ['a'], QStep.start, QStep.complete 0 (BgRun.val (Outcome.ok "f.wav")),
       QStep.clear, QStep.enqueue 2 ['b'], QStep.start]) ≤ 1 :=
  ⟨by decide,
   c3_at_most_one_processing
     [QStep.enqueue 1 ['a'], QStep.start, QStep.complete 0 (BgRun.val (Outcome.ok "f.wav")),
      QStep.clear, QStep.enqueue 2 ['b'], QStep.start] (by decide)⟩

/-! ### Clear and late completion callbacks -/

theorem complete_on_cleared (s0 : MState) (jid : Nat) (bgr : BgRun)
    (hq : s0.queue = []) (ht : s0.table = []) :
    (step s0 (QStep.complete jid bgr)).1.queue = [] ∧
    (step s0 (QStep.complete jid bgr)).1.running = s0.running ∧
    (∀ t ∈ s0.inflight, (t.jid == jid) = true →
      (step s0 (QStep.complete jid bgr)).2 = true) := by
  simp only [step]
  cases hf : s0.inflight.find? (fun (t : InfTask) => t.jid == jid) with
  | none =>
    refine ⟨hq, rfl, ?_⟩
    intro t htm htj
    exact absurd htj (List.find?_eq_none.mp hf t htm)
  | some t =>
    refine ⟨?_, ?_, ?_⟩
    · simp [onDone, thenDo, updateRowM, setJobState, hq, ht]
    · simp [onDone, thenDo, updateRowM, setJobState, hq, ht]
    · intro t2 _ _
      simp [onDone, thenDo, updateRowM, setJobState, hq, ht]

/-- C9 (amended): Clear drops all Jobs, resets the aggregate progress to zero
and marks the run stopped, at any time; a late completion callback arriving
after the Clear neither re-adds jobs nor restarts the run (the queue stays
empty and stopped), but it is not tolerated harmlessly: its row update
dereferences a removed table row and raises. -/
theorem c9_clear_resets_and_late_callback (s : MState) (jid : Nat) (bgr : BgRun) :
    (step s QStep.clear).1.queue = [] ∧
    (step s QStep.clear).1.batchBar = 0 ∧
    (step s QStep.clear).1.running = false ∧
    (step (step s QStep.clear).1 (QStep.complete jid bgr)).1.queue = [] ∧
    (step (step s QStep.clear).1 (QStep.complete jid bgr)).1.running = false ∧
    (∀ t ∈ (step s QStep.clear).1.inflight, t.jid = jid →
      (step (step s QStep.clear).1 (QStep.complete jid bgr)).2 = true) := by
  have hkey := complete_on_cleared (step s QStep.clear).1 jid bgr rfl rfl
  refine ⟨rfl, rfl, rfl, hkey.1, ?_, ?_⟩
  · rw [hkey.2.1]
    rfl
  · intro t htm htj
    exact hkey.2.2 t htm (by simp [htj])

/-- C9 counterexample: a concrete run (enqueue, start, clear) followed by the
in-flight work unit's late completion; the callback raises instead of
completing without raising. -/
theorem c9_late_callback_counterexample :
    (step (runSteps initState [QStep.enqueue 1 ['a'], QStep.start, QStep.clear])
      (QStep.complete 0 (BgRun.val (Outcome.ok "f.wav")))).2 = true := by decide

/-- Witness for C9 at a concrete cleared run with the stale task in flight. -/
theorem c9_clear_resets_and_late_callback_witness :
    InfTask.mk 0 0 ∈
      (step (runSteps initState [QStep.enqueue 1 ['a'], QStep.start]) QStep.clear).1.inflight ∧
    (step (step (runSteps initState [QStep.enqueue 1 ['a'], QStep.start]) QStep.clear).1
      (QStep.complete 0 (BgRun.val Outcome.skip_empty))).2 = true :=
  ⟨by decide,
   (c9_clear_resets_and_late_callback (runSteps initState [QStep.enqueue 1 ['a'], QStep.start])
      0 (BgRun.val Outcome.skip_empty)).2.2.2.2.2 (InfTask.mk 0 0) (by decide) rfl⟩

/-! ### Failure containment of the per-job work unit -/

theorem outcomeEffect_fst_terminal (out : Outcome) :
    (outcomeEffect out).1 = JState.done ∨ (outcomeEffect out).1 = JState.skipped ∨
    (outcomeEffect out).1 = JState.error := by
  cases out <;> simp [outcomeEffect]

theorem setJobState_self (q : List Job) (c : Nat) (st : JState) (pr : Option Nat) :
    ∀ j2 ∈ setJobState q c st pr, j2.jid = c → j2.state = st := by
  intro j2 hj2 hjid
  obtain ⟨j0, hj0, he⟩ := mem_setJobState hj2
  by_cases hid : (j0.jid == c) = true
  · rw [he, if_pos hid]
  · exfalso
    rw [he, if_neg hid] at hjid
    exact hid (by simp [hjid])

theorem setJobState_other (q : List Job) (c2 : Nat) (st : JState) (pr : Option Nat)
    (c : Nat) (hne : c ≠ c2) :
    ∀ j2 ∈ setJobState q c2 st pr, j2.jid = c →
      ∃ j0 ∈ q, j0.jid = c ∧ j2.state = j0.state := by
  intro j2 hj2 hjid
  obtain ⟨j0, hj0, he⟩ := mem_setJobState hj2
  by_cases hid : (j0.jid == c2) = true
  · exfalso
    rw [he, if_pos hid] at hjid
    have h0 : j0.jid = c := hjid
    have hb : j0.jid = c2 := by simpa using hid
    exact hne (h0.symm.trans hb)
  · refine ⟨j0, hj0, ?_, ?_⟩
    · rw [he, if_neg hid] at hjid
      exact hjid
    · rw [he, if_neg hid]

theorem processJob_queue (s : MState) (j : Job) :
    (processJob s j).1.queue = setJobState s.queue j.jid JState.processing none := by
  unfold processJob
  by_cases hc : j.row < s.table.length
  · simp [thenDo, updateRowM, hc]
  · simp [thenDo, updateRowM, hc]

theorem find?_waiting_state {q : List Job} {j : Job}
    (hf : q.find? (fun j2 => j2.state == JState.waiting) = some j) :
    j.state = JState.waiting := by
  have h2 := List.find?_some hf
  simpa using h2

theorem processNext_preserves_terminal (s : MState) (c : Nat)
    (hterm : ∀ j2 ∈ s.queue, j2.jid = c →
      j2.state = JState.done ∨ j2.state = JState.skipped ∨ j2.state = JState.error) :
    ∀ j2 ∈ (processNext s).1.queue, j2.jid = c →
      j2.state = JState.done ∨ j2.state = JState.skipped ∨ j2.state = JState.error := by
  unfold processNext
  cases hf : s.queue.find? (fun j2 => j2.state == JState.waiting) with
  | none => exact hterm
  | some j =>
    intro j2 hj2 hjid
    rw [processJob_queue] at hj2
    have hjw : j.state = JState.waiting := find?_waiting_state hf
    have hjne : j.jid ≠ c := by
      intro he
      rcases hterm j (List.mem_of_find?_eq_some hf) he with h1 | h1 | h1 <;>
        exact JState.noConfusion (h1.symm.trans hjw)
    obtain ⟨j0, hj0, hj0c, hst⟩ :=
      setJobState_other s.queue j.jid JState.processing none c
        (fun he => hjne he.symm) j2 hj2 hjid
    rw [hst]
    exact hterm j0 hj0 hj0c

theorem processNext_fires (s : MState)
    (hR : ∀ j2 ∈ s.queue, j2.row < s.table.length) :
    (processNext s).1.running = false ∨
      ∃ j2 ∈ (processNext s).1.queue, j2.state = JState.processing := by
  unfold processNext
  cases hf : s.queue.find? (fun j2 => j2.state == JState.waiting) with
  | none => exact Or.inl rfl
  | some j =>
    right
    have hj := List.mem_of_find?_eq_some hf
    show ∃ j2 ∈ (processJob s j).1.queue, j2.state = JState.processing
    rw [processJob_eq s j (hR j hj)]
    refine ⟨{j with state := JState.processing}, ?_, rfl⟩
    have hm := setJobState_mem_of_mem hj j.jid JState.processing none
    rw [if_pos (by simp)] at hm
    exact hm

theorem setJobState_rows (s : MState) (c : Nat) (st : JState) (pr : Option Nat)
    (row : Nat) (lbl : String)
    (hR : ∀ j2 ∈ s.queue, j2.row < s.table.length) :
    ∀ j2 ∈ setJobState s.queue c st pr, j2.row < (s.table.set row lbl).length := by
  intro j2 hj2
  obtain ⟨j0, hj0, he⟩ := mem_setJobState hj2
  have hr2 : j2.row = j0.row := by
    rw [he]
    split <;> rfl
  rw [List.length_set, hr2]
  exact hR j0 hj0

/-- The synchronous fallback of `_process_job` (dialog.py 454-460): when
`run_in_background` raises (background dispatch unavailable), `bg` runs in
place and its result is handed to `on_done`; an exception raised by `bg()`
itself inside the `except` block is not caught and propagates past
`_process_job`. -/
def processJobSyncFallback (s : MState) (j : Job) (bgr : BgRun) : MState × Bool :=
  let s1 := {s with queue := setJobState s.queue j.jid JState.processing none}
  thenDo (updateRowM s1 j.row "processing (generating…)")
    (fun s2 =>
      match bgr with
      | .val out => onDone s2 (InfTask.mk j.jid j.row) out
      | .exn _ => (s2, true))

/-- The queue state after one note is enqueued, used for the C2 inputs. -/
def c2SyncState : MState := runSteps initState [QStep.enqueue 1 ['h', 'i']]

/-- C2 counterexample: in the synchronous fallback path, an exception thrown
by the work-unit function itself escapes `_process_job` (the flag is `true`)
and the job is left in `processing`, not converted to the terminal error
outcome — so the drive loop's next step never fires for it. -/
theorem c2_sync_exception_counterexample :
    (processJobSyncFallback c2SyncState (Job.mk 0 1 0 JState.waiting 0 ['h', 'i'])
      (BgRun.exn "boom")).2 = true ∧
    (processJobSyncFallback c2SyncState (Job.mk 0 1 0 JState.waiting 0 ['h', 'i'])
      (BgRun.exn "boom")).1.queue =
      [Job.mk 0 1 0 JState.processing 0 ['h', 'i']] := by decide

/-- C2 (amended): in the background-dispatch path, every failure of the
per-job work unit — including an exception thrown by the work-unit function
itself, which the completion handler's future unwrap converts to the `error`
outcome — becomes the job's terminal outcome without raising past the
orchestrator, and the drive loop's next step still fires (a further job is
dispatched or the run stops).  In the synchronous fallback path, an exception
thrown by the work-unit function propagates past the orchestrator boundary and
the job is left in `processing`. -/
theorem c2_failure_containment :
    (∀ (s : MState) (jid : Nat) (bgr : BgRun), QInv s →
      ∀ t ∈ s.inflight, t.jid = jid →
      (step s (QStep.complete jid bgr)).2 = false ∧
      (∀ j2 ∈ (step s (QStep.complete jid bgr)).1.queue, j2.jid = jid →
        j2.state = JState.done ∨ j2.state = JState.skipped ∨ j2.state = JState.error) ∧
      ((step s (QStep.complete jid bgr)).1.running = false ∨
        ∃ j2 ∈ (step s (QStep.complete jid bgr)).1.queue, j2.state = JState.processing)) ∧
    (∀ (s : MState) (j : Job) (e : String), j.row < s.table.length →
      (processJobSyncFallback s j (BgRun.exn e)).2 = true ∧
      (∀ j2 ∈ (processJobSyncFallback s j (BgRun.exn e)).1.queue, j2.jid = j.jid →
        j2.state = JState.processing)) := by
  constructor
  · intro s jid bgr hInv t ht htj
    obtain ⟨hN, hD, hL, hF, hR, hJ, hQ⟩ := hInv
    have hsome : ∃ t2, s.inflight.find? (fun (x : InfTask) => x.jid == jid) = some t2 := by
      cases hf : s.inflight.find? (fun (x : InfTask) => x.jid == jid) with
      | none => exact absurd (by simp [htj]) (List.find?_eq_none.mp hf t ht)
      | some t2 => exact ⟨t2, rfl⟩
    obtain ⟨t2, hf⟩ := hsome
    have ht2mem : t2 ∈ s.inflight := List.mem_of_find?_eq_some hf
    have ht2jid : t2.jid = jid := by
      have h2 := List.find?_some hf
      simpa using h2
    have hsingle : s.inflight = [t2] := eq_singleton_of_mem_of_length_le ht2mem hL
    have hfilter : s.inflight.filter (fun (x : InfTask) => !(x.jid == jid)) = [] := by
      rw [hsingle]
      simp [List.filter, show (t2.jid == jid) = true by simp [ht2jid]]
    have hrun : s.running = true := by
      cases hr : s.running
      · rw [hF hr] at ht2mem
        cases ht2mem
      · rfl
    obtain ⟨jb, hjb, hjbjid, hjbrow, _⟩ := hQ t2 ht2mem
    have hrow : t2.row < s.table.length := by
      rw [← hjbrow]
      exact hR jb hjb
    have hProcId : ∀ j2 ∈ s.queue, j2.state = JState.processing → j2.jid = t2.jid := by
      intro j2 hj2 hproc
      obtain ⟨t3, ht3, ht3jid⟩ := hD j2 hj2 hproc
      rw [hsingle, List.mem_singleton] at ht3
      rw [← ht3jid, ht3]
    have hstep : step s (QStep.complete jid bgr) =
        onDone {s with inflight := s.inflight.filter (fun (x : InfTask) => !(x.jid == jid))}
          t2 (bgRunOutcome bgr) := by
      simp only [step, hf]
    have hdi := onDone_inv
      {s with inflight := s.inflight.filter (fun (x : InfTask) => !(x.jid == jid))}
      t2 (bgRunOutcome bgr) hN hR hJ hfilter hrun hrow hProcId
    refine ⟨by rw [hstep]; exact hdi.1, ?_, ?_⟩
    · rw [hstep, onDone_eq
        {s with inflight := s.inflight.filter (fun (x : InfTask) => !(x.jid == jid))}
        t2 (bgRunOutcome bgr) hrow]
      apply processNext_preserves_terminal
      intro j2 hj2 hjid
      have hst := setJobState_self s.queue t2.jid _ _ j2 hj2 (hjid.trans ht2jid.symm)
      rw [hst]
      exact outcomeEffect_fst_terminal _
    · rw [hstep, onDone_eq
        {s with inflight := s.inflight.filter (fun (x : InfTask) => !(x.jid == jid))}
        t2 (bgRunOutcome bgr) hrow]
      apply processNext_fires
      exact setJobState_rows s t2.jid _ _ t2.row _ hR
  · intro s j e hrow
    constructor
    · unfold processJobSyncFallback
      simp [thenDo, updateRowM, hrow]
    · intro j2 hj2 hjid
      have hq2 : (processJobSyncFallback s j (BgRun.exn e)).1.queue =
          setJobState s.queue j.jid JState.processing none := by
        unfold processJobSyncFallback
        simp [thenDo, updateRowM, hrow]
      rw [hq2] at hj2
      exact setJobState_self _ _ _ _ j2 hj2 hjid

/-- Witness for C2: a delivered background failure at a concrete one-job run,
and the concrete synchronous-fallback escape. -/
theorem c2_failure_containment_witness :
    (step (runSteps initState [QStep.enqueue 1 ['a'], QStep.start])
      (QStep.complete 0 (BgRun.exn "boom"))).2 = false ∧
    (processJobSyncFallback c2SyncState (Job.mk 0 1 0 JState.waiting 0 ['h', 'i'])
      (BgRun.exn "boom")).2 = true :=
  ⟨(c2_failure_containment.1 (runSteps initState [QStep.enqueue 1 ['a'], QStep.start])
      0 (BgRun.exn "boom") (by decide) (InfTask.mk 0 0) (by decide) rfl).1,
   (c2_failure_containment.2 c2SyncState (Job.mk 0 1 0 JState.waiting 0 ['h', 'i'])
      "boom" (by decide)).1⟩

/-! ## dialog.py : the per-job work unit `bg` (lines 359-418) -/

/-- A record (note) as seen by the work unit: the live values of the selected
source and target fields. -/
structure NoteView where
  src : List Char
  dst : List Char

/-- The external collaborators of one work-unit execution: the three
`mw.col.get_note` re-fetches (`none` models a raised exception), the provider
adapter (`synthesize_tts_bytes`, returning the `(audio_bytes, err)` pair), the
media sink (`add_media_bytes`) and the record write (`note[dst] = ...` plus
`update_note`; `some msg` models a raised exception). -/
structure BgEnv where
  fetch1 : Option NoteView
  fetch2 : Option NoteView
  fetch3 : Option NoteView
  synth : List Char → Option (List Nat) × Option String
  addMedia : String → Option String
  write : List Char → Option String

/-- The configuration values the work unit reads: the captured overwrite
checkbox, the two bool-coerced batch flags, and the raw string-valued config
lookups that are used with `or`-defaults inside `bg`. -/
structure BgCfg where
  overwrite : Bool
  skip_if_source_empty : Bool
  skip_if_target_has_sound : Bool
  ext : Option String
  filename_template : Option String
  write_mode : Option String
  append_separator : Option String

/-- Python `x or dflt` for an optional string value. -/
def pyOrStr (v : Option String) (dflt : String) : String :=
  match v with
  | some x => if x = "" then dflt else x
  | none => dflt

/-- The filesystem-unsafe characters removed by `safe_filename_from_text`
(text_utils.py line 35). -/
def filenameUnsafeChars : List Char := ['<', '>', ':', '"', '/', '\\', '|', '?', '*']

/-- `safe_filename_from_text` (text_utils.py lines 24-36). -/
def safe_filename_from_text (text : List Char) (ext : String) : String :=
  let base := text.take 20
  let base := pyStrip (base.filter (fun c => !(filenameUnsafeChars.contains c)))
  let base := if base = [] then "audio".toList else base
  String.mk (base ++ ('.' :: ext.toList))

/-- `render_sound_tag` (text_utils.py lines 39-48). -/
def render_sound_tag (fname : String) : String :=
  "[sound:" ++ fname ++ "]"

/-- The audio-reference marker searched by the skip-has-sound check
(dialog.py line 375). -/
def soundMarker : List Char := "[sound:".toList

/-- Python `template.format(nid=..., field=..., ext=...)` restricted to the
brace syntax the filename templates use: `{nid}`, `{field}` and `{ext}` are
substituted; an unknown key raises KeyError and a stray brace raises
ValueError (`Except.error`). -/
def pyFormatAux (nid : Nat) (field ext : String) :
    List Char → Option (List Char) → Except String (List Char)
  | [], none => .ok []
  | [], some _ => .error "ValueError"
  | '{' :: rest, none => pyFormatAux nid field ext rest (some [])
  | '}' :: rest, some key =>
    let rep : Option (List Char) :=
      if key = "nid".toList then some (toString nid).toList
      else if key = "field".toList then some field.toList
      else if key = "ext".toList then some ext.toList
      else none
    (match rep with
     | some r => (pyFormatAux nid field ext rest none).map (fun tl => r ++ tl)
     | none => .error "KeyError")
  | '}' :: _, none => .error "ValueError"
  | c :: rest, none => (pyFormatAux nid field ext rest none).map (fun tl => c :: tl)
  | c :: rest, some key => pyFormatAux nid field ext rest (some (key ++ [c]))

def pyFormat (template : String) (nid : Nat) (field ext : String) : Except String String :=
  (pyFormatAux nid field ext template.toList none).map String.mk

/-- The live source text read at work-unit start (dialog.py 361-365): the
re-fetched field value, or — when the re-fetch raises — the enqueue-time
snapshot (`job.get("text") or ""`). -/
def bgLiveText (env : BgEnv) (snapshot : List Char) : List Char :=
  match env.fetch1 with
  | some n => n.src
  | none => snapshot

/-- The live target value read for the skip-has-sound check
(dialog.py 370-374); a fetch failure yields `""`. -/
def bgTargetValue (env : BgEnv) : List Char :=
  match env.fetch2 with
  | some n => n.dst
  | none => []

/-- The observable behaviour of one work-unit run: the outcome tuple (or an
exception escaping `bg`, as `Except.error`), and the text handed to the
provider adapter, if the adapter was invoked at all. -/
structure BgObs where
  result : Except String Outcome
  synthInput : Option (List Char)

/-- The tail of `bg` from the synthesis call onwards (dialog.py 378-418):
synthesize, store the media under the templated (or fallback) name, and write
the field value. -/
def bgTail (env : BgEnv) (cfg : BgCfg) (nid : Nat) (dstField : String)
    (text : List Char) : Except String Outcome :=
  match env.synth text with
  | (_, some err) => .ok (Outcome.error err)
  | (none, none) => .ok Outcome.no_audio
  | (some bytes, none) =>
    if bytes.isEmpty then .ok Outcome.no_audio
    else
      let ext := String.mk ((pyOrStr cfg.ext "wav").toList.dropWhile (fun c => c == '.'))
      let template := pyOrStr cfg.filename_template "tts_{nid}_{field}.{ext}"
      match pyFormat template nid dstField ext with
      | .error e => .error e
      | .ok name0 =>
        let preferred := if name0.length < 8 then safe_filename_from_text text ext
          else name0
        match env.addMedia preferred with
        | none => .ok (Outcome.error "failed to store media")
        | some stored =>
          if stored = "" then .ok (Outcome.error "failed to store media")
          else
            let tag := render_sound_tag stored
            let write_mode := if cfg.overwrite then "replace"
              else (pyOrStr cfg.write_mode "append").toLower
            let cur2 := match env.fetch3 with
              | some n => n.dst
              | none => []
            let newVal := if write_mode = "replace" then tag.toList
              else appendFieldValue cur2 (pyOrStr cfg.append_separator " ").toList tag.toList
            match env.write newVal with
            | some msg => .ok (Outcome.error ("write failed: " ++ msg))
            | none => .ok (Outcome.ok stored)

/-- The work unit `bg` (dialog.py 359-418). -/
def bgWorkUnit (env : BgEnv) (cfg : BgCfg) (nid : Nat) (dstField : String)
    (snapshot : List Char) : BgObs :=
  let text := bgLiveText env snapshot
  if (pyStrip text).isEmpty && cfg.skip_if_source_empty then
    ⟨.ok Outcome.skip_empty, none⟩
  else if !cfg.overwrite && cfg.skip_if_target_has_sound &&
      pyIn soundMarker (bgTargetValue env) then
    ⟨.ok Outcome.skip_has_sound, none⟩
  else
    ⟨bgTail env cfg nid dstField text, some text⟩

/-- The live record used to refute C4: non-blank source, target already
containing a sound reference. -/
def c4Env : BgEnv :=
  { fetch1 := some ⟨"hello".toList, "[sound:old.wav]".toList⟩,
    fetch2 := some ⟨"hello".toList, "[sound:old.wav]".toList⟩,
    fetch3 := some ⟨"hello".toList, "[sound:old.wav]".toList⟩,
    synth := fun _ => (none, some "unreachable"),
    addMedia := fun _ => none,
    write := fun _ => none }

/-- The default batch policy: overwrite disabled, both skips enabled, no
explicit string settings. -/
def c4Cfg : BgCfg :=
  { overwrite := false, skip_if_source_empty := true,
    skip_if_target_has_sound := true,
    ext := none, filename_template := none, write_mode := none,
    append_separator := none }

/-- C4 counterexample: a job whose live target already holds `[sound:...]`
(overwrite off, skip enabled, non-blank source) is skipped before any provider
call, but its display label is `skipped (already has sound)`, not the
`skipped (already has audio)` the claim states. -/
theorem c4_label_counterexample :
    (bgWorkUnit c4Env c4Cfg 1 "Audio" []).result = Except.ok Outcome.skip_has_sound ∧
    (bgWorkUnit c4Env c4Cfg 1 "Audio" []).synthInput = none ∧
    (outcomeEffect Outcome.skip_has_sound).2.2 = "skipped (already has sound)" ∧
    "skipped (already has sound)" ≠ "skipped (already has audio)" :=
  ⟨rfl, rfl, rfl, by decide⟩

/-- C4 (amended): for every job with a non-blank live source (or empty-source
skipping disabled) whose live target-field value contains `[sound:`, when
overwrite is false and skip_if_target_has_sound is true, the work unit returns
the skip-has-sound outcome before any provider-adapter or network call, the
job terminates in state `skipped`, and its display label is
`skipped (already has sound)`. -/
theorem c4_skip_has_sound (env : BgEnv) (cfg : BgCfg) (nid : Nat)
    (dstField : String) (snapshot : List Char)
    (hsrc : ((pyStrip (bgLiveText env snapshot)).isEmpty &&
      cfg.skip_if_source_empty) = false)
    (hov : cfg.overwrite = false)
    (hskip : cfg.skip_if_target_has_sound = true)
    (hdst : pyIn soundMarker (bgTargetValue env) = true) :
    bgWorkUnit env cfg nid dstField snapshot =
      ⟨Except.ok Outcome.skip_has_sound, none⟩ ∧
    (outcomeEffect Outcome.skip_has_sound).1 = JState.skipped ∧
    (outcomeEffect Outcome.skip_has_sound).2.2 = "skipped (already has sound)" := by
  refine ⟨?_, rfl, rfl⟩
  unfold bgWorkUnit
  simp [hsrc, hov, hskip, hdst]

/-- Witness for C4 at the concrete inputs of the counterexample. -/
theorem c4_skip_has_sound_witness :
    bgWorkUnit c4Env c4Cfg 1 "Audio" [] = ⟨Except.ok Outcome.skip_has_sound, none⟩ :=
  (c4_skip_has_sound c4Env c4Cfg 1 "Audio" [] (by decide) rfl rfl (by decide)).1

/-- An environment whose record re-fetch raises, used to refute C7. -/
def c7Env : BgEnv :=
  { fetch1 := none, fetch2 := none, fetch3 := none,
    synth := fun _ => (none, some "network unavailable"),
    addMedia := fun _ => none,
    write := fun _ => none }

/-- The batch policy used for the C7 runs. -/
def c7Cfg : BgCfg :=
  { overwrite := false, skip_if_source_empty := true,
    skip_if_target_has_sound := true,
    ext := none, filename_template := none, write_mode := none,
    append_separator := none }

/-- C7 counterexample: when the record re-fetch raises, the enqueue-time text
snapshot is used as the synthesis input — the snapshot is not purely
informational. -/
theorem c7_snapshot_fallback_counterexample :
    c7Env.fetch1 = none ∧
    (bgWorkUnit c7Env c7Cfg 1 "Audio" "hello".toList).synthInput =
      some "hello".toList :=
  ⟨rfl, rfl⟩

/-- C7 (amended): the text passed to the provider adapter is the live
source-field value re-fetched at work-unit start whenever that re-fetch
succeeds; when the re-fetch raises, the enqueue-time normalized full-text
snapshot (not the truncated display preview) is used as a fallback synthesis
input. -/
theorem c7_synthesis_input (env : BgEnv) (cfg : BgCfg) (nid : Nat)
    (dstField : String) (snapshot : List Char) :
    (∀ n, env.fetch1 = some n →
      ∀ t, (bgWorkUnit env cfg nid dstField snapshot).synthInput = some t →
        t = n.src) ∧
    (env.fetch1 = none →
      ∀ t, (bgWorkUnit env cfg nid dstField snapshot).synthInput = some t →
        t = snapshot) := by
  have hkey : ∀ t, (bgWorkUnit env cfg nid dstField snapshot).synthInput = some t →
      t = bgLiveText env snapshot := by
    intro t h
    unfold bgWorkUnit at h
    cases h1 : ((pyStrip (bgLiveText env snapshot)).isEmpty && cfg.skip_if_source_empty) with
    | true => simp [h1] at h
    | false =>
      cases h2 : (!cfg.overwrite && cfg.skip_if_target_has_sound &&
          pyIn soundMarker (bgTargetValue env)) with
      | true => simp [h1, h2] at h
      | false =>
        simp [h1, h2] at h
        exact h.symm
  refine ⟨?_, ?_⟩
  · intro n hn t h
    rw [hkey t h]
    simp [bgLiveText, hn]
  · intro hn t h
    rw [hkey t h]
    simp [bgLiveText, hn]

/-- An environment with a live source value, used to witness C7. -/
def c7wEnv : BgEnv :=
  { fetch1 := some ⟨"live".toList, []⟩, fetch2 := some ⟨"live".toList, []⟩,
    fetch3 := some ⟨"live".toList, []⟩,
    synth := fun _ => (none, some "e"),
    addMedia := fun _ => none,
    write := fun _ => none }

/-- Witness for C7: a successful re-fetch makes the live value the synthesis
input even though the snapshot differs. -/
theorem c7_synthesis_input_witness :
    (bgWorkUnit c7wEnv c7Cfg 1 "Audio" ['s']).synthInput = some "live".toList ∧
    "live".toList = (NoteView.mk "live".toList []).src :=
  ⟨rfl,
   (c7_synthesis_input c7wEnv c7Cfg 1 "Audio" ['s']).1 (NoteView.mk "live".toList [])
     rfl "live".toList rfl⟩
